import Mathlib

/-!
Verification of the `solana-common` transaction pipeline (TypeScript sources).

The development shallowly embeds the pure logic of the repository:

* `src/utils.ts` — `replaceNonZeroAndSortPrioritizationFeesAsc`,
  `getRecentPriorityFee` (fee estimator);
* `src/payload/multiTransactionPayload.ts` — `validateTransactionData`,
  `addPriorityFeeInstructions`, `calculatePriorityFee`,
  `sendTransactionWithRetry`, and the batch `execute` orchestration.

Modelling conventions:
* `BigNumber` values are embedded as `ℚ` (the library performs exact
  decimal arithmetic on the magnitudes occurring here); a JavaScript
  number that may be `NaN` is embedded as `Option ℚ` with `none` = NaN.
* Network effects are parameters: the result of an RPC fetch is passed
  in as an `Except`/function argument, so each embedded operation is a
  pure function of its inputs.
* Public keys are abstracted as `Nat`; only equality of keys matters.
-/

namespace SolanaCommon

/-- Priority fee calculation levels, from `src/utils.ts` (`PriorityLevel`). -/
inductive PriorityLevel where
  | low
  | medium
  | high
deriving DecidableEq

/-- BigNumber rounding mode `ROUND_DOWN` applied at zero decimal places:
rounding toward zero (truncation). -/
def bnTrunc (q : ℚ) : ℤ := if 0 ≤ q then ⌊q⌋ else ⌈q⌉

/-- BigNumber rounding mode `ROUND_CEIL` applied at zero decimal places:
rounding toward positive infinity. -/
def bnCeil (q : ℚ) : ℤ := ⌈q⌉

/-- One recent prioritization-fee sample (`web3.RecentPrioritizationFees`).
The fee is a JavaScript number; `none` stands for `NaN`. -/
structure RecentPrioritizationFees where
  slot : Nat
  prioritizationFee : Option ℚ
deriving DecidableEq

/-- Embeds `BigNumber(a).comparedTo(b) ?? 0` from the sort comparator in
`replaceNonZeroAndSortPrioritizationFeesAsc`: a `NaN` operand makes
`comparedTo` return `null`, which `?? 0` collapses to `0`. -/
def bnComparedTo (a b : Option ℚ) : ℤ :=
  match a, b with
  | some x, some y => if x < y then -1 else if y < x then 1 else 0
  | _, _ => 0

/-- The comparator used by the `.sort` call, as a boolean "less or equal". -/
def feeLE (a b : RecentPrioritizationFees) : Bool :=
  bnComparedTo a.prioritizationFee b.prioritizationFee ≤ 0

/-- Insertion step of a stable sort (used to model `Array.prototype.sort`,
which is required to be stable by the ECMAScript specification). -/
def jsOrderedInsert (le : α → α → Bool) (a : α) : List α → List α
  | [] => [a]
  | b :: l => if le a b then a :: b :: l else b :: jsOrderedInsert le a l

/-- Stable sort modelling `Array.prototype.sort(comparator)`. -/
def jsStableSort (le : α → α → Bool) : List α → List α
  | [] => []
  | a :: l => jsOrderedInsert le a (jsStableSort le l)

/-- Filter predicate from `replaceNonZeroAndSortPrioritizationFeesAsc`:
`!Number.isNaN(fee.prioritizationFee) && fee.prioritizationFee > 0`. -/
def feeKeep (fee : RecentPrioritizationFees) : Bool :=
  match fee.prioritizationFee with
  | some q => decide (0 < q)
  | none => false

/-- Embeds `replaceNonZeroAndSortPrioritizationFeesAsc` from `src/utils.ts`:
drop `NaN` and non-positive samples, then sort ascending by fee. -/
def replaceNonZeroAndSortPrioritizationFeesAsc
    (recentPrioritizationFees : List RecentPrioritizationFees) :
    List RecentPrioritizationFees :=
  jsStableSort feeLE (recentPrioritizationFees.filter feeKeep)

/-- Placeholder entry used for out-of-range indexing; the source indexes
with a non-null assertion and all indices used are in range. -/
def defaultFeeEntry : RecentPrioritizationFees := ⟨0, none⟩

/-- Embeds `BigNumber(x.prioritizationFee)` for a sample that already
passed the NaN filter (so `none` is unreachable on the live code path). -/
def bnOfFee (a : Option ℚ) : ℚ := a.getD 0

/-- The median computation inside `getRecentPriorityFee`
(`src/unnamed/part_004`, lines 256-270), applied to the already filtered
and sorted list: zero on the empty list, middle element rounded with
`ROUND_DOWN` for odd length, rounded average of the two middle elements
for even length. -/
def medianFee (sortedNonZeroList : List RecentPrioritizationFees) : ℚ :=
  if 0 < sortedNonZeroList.length then
    let midIndex := sortedNonZeroList.length / 2
    if sortedNonZeroList.length % 2 ≠ 0 then
      ((bnTrunc (bnOfFee
        (sortedNonZeroList.getD midIndex defaultFeeEntry).prioritizationFee) : ℤ) : ℚ)
    else
      ((bnTrunc ((bnOfFee
          (sortedNonZeroList.getD (midIndex - 1) defaultFeeEntry).prioritizationFee
        + bnOfFee
          (sortedNonZeroList.getD midIndex defaultFeeEntry).prioritizationFee) / 2) : ℤ) : ℚ)
  else 0

/-- Priority-level multipliers from `getRecentPriorityFee`
(`low: 0.8, medium: 1.2, high: 2.0`). -/
def multipliers : PriorityLevel → ℚ
  | .low => 4 / 5
  | .medium => 6 / 5
  | .high => 2

/-- Fallback fees used when the RPC fee-sample fetch throws
(`low: 1000, medium: 5000, high: 25000`). -/
def fallbackFees : PriorityLevel → ℚ
  | .low => 1000
  | .medium => 5000
  | .high => 25000

/-- The pre-cap fee computed by `getRecentPriorityFee` on the success
path: median of the filtered sorted samples, times the level multiplier,
rounded with `ROUND_CEIL`. -/
def calculatedFeeFor (recentPrioritizationFees : List RecentPrioritizationFees)
    (priorityLevel : PriorityLevel) : ℚ :=
  ((bnCeil (medianFee (replaceNonZeroAndSortPrioritizationFeesAsc recentPrioritizationFees)
      * multipliers priorityLevel) : ℤ) : ℚ)

/-- Embeds `getRecentPriorityFee` from `src/unnamed/part_004`. The RPC
call `connection.getRecentPrioritizationFees({lockedWritableAccounts})`
is abstracted into the `fetchResult` argument (the instruction list only
scopes that network request); `.error` is the catch branch. -/
def getRecentPriorityFee (fetchResult : Except Unit (List RecentPrioritizationFees))
    (priorityLevel : PriorityLevel) (maxFeeCap : ℚ) : ℚ :=
  match fetchResult with
  | .ok recentPrioritizationFees =>
      min (calculatedFeeFor recentPrioritizationFees priorityLevel) maxFeeCap
  | .error _ => min (fallbackFees priorityLevel) maxFeeCap

/-! ### Constants (`src/constants.ts`) -/

def LAMPORTS_PER_SOL : ℚ := 1000000000

def BASE_FEE_LAMPORTS : ℚ := 5000

def LAMPORTS_PER_MICRO_LAMPORT : ℚ := 1 / 1000000

def DEFAULT_MAX_PRIORITY_FEE : ℚ := 1 / 1000

def MAX_COMPUTE_UNIT : Nat := 1400000

def COMPUTE_BUDGET_PROGRAM_COMPUTE_UNIT : Nat := 400

/-! ### Instructions and the compute-budget program -/

/-- A transaction instruction. The account-key metadata is irrelevant to
the verified logic (it only scopes the fee-sample RPC query), so only the
program id and the instruction data are modelled; the data is the
discriminator byte followed by the payload fields. -/
structure TransactionInstruction where
  programId : Nat
  data : List ℤ
deriving DecidableEq

/-- Abstract stand-in for the compute-budget program public key
(`ComputeBudget111111111111111111111111111111`). -/
def computeBudgetProgramId : Nat := 101

/-- Instruction kinds decodable by
`web3.ComputeBudgetInstruction.decodeInstructionType`. -/
inductive ComputeBudgetIxKind where
  | requestHeapFrame
  | setComputeUnitLimit
  | setComputeUnitPrice
deriving DecidableEq

/-- Embeds `decodeInstructionType`, which dispatches on the instruction
discriminator byte (1 = heap frame, 2 = unit limit, 3 = unit price);
`none` models the throw on an unrecognized discriminator. -/
def decodeComputeBudgetIxKind (ix : TransactionInstruction) : Option ComputeBudgetIxKind :=
  match ix.data.head? with
  | some d =>
      if d = 1 then some .requestHeapFrame
      else if d = 2 then some .setComputeUnitLimit
      else if d = 3 then some .setComputeUnitPrice
      else none
  | none => none

/-- Embeds `web3.ComputeBudgetProgram.setComputeUnitLimit({units})`. -/
def setComputeUnitLimit (units : Nat) : TransactionInstruction :=
  ⟨computeBudgetProgramId, [2, (units : ℤ)]⟩

/-- Embeds `web3.ComputeBudgetProgram.setComputeUnitPrice({microLamports})`. -/
def setComputeUnitPrice (microLamports : ℤ) : TransactionInstruction :=
  ⟨computeBudgetProgramId, [3, microLamports]⟩

/-- The detection predicate used by `addPriorityFeeInstructions`: compute
budget program id plus the `SetComputeUnitLimit` opcode. -/
def isComputeUnitLimitIx (ix : TransactionInstruction) : Bool :=
  decide (ix.programId = computeBudgetProgramId
    ∧ decodeComputeBudgetIxKind ix = some ComputeBudgetIxKind.setComputeUnitLimit)

/-- The detection predicate used by `addPriorityFeeInstructions`: compute
budget program id plus the `SetComputeUnitPrice` opcode. -/
def isComputeUnitPriceIx (ix : TransactionInstruction) : Bool :=
  decide (ix.programId = computeBudgetProgramId
    ∧ decodeComputeBudgetIxKind ix = some ComputeBudgetIxKind.setComputeUnitPrice)

/-- The fields of `TransactionExecutionOptions` consumed by the embedded
priority-fee logic. -/
structure TransactionExecutionOptions where
  priorityLevel : Option PriorityLevel
  maxPriorityFeeSol : Option ℚ
  exactPriorityFeeSol : Option ℚ
deriving DecidableEq

/-- Embeds `calculatePriorityFee` (`src/unnamed/part_003`, lines 248-285).
The guard `options?.exactPriorityFeeSol ? BigNumber(...) : undefined` uses
JavaScript truthiness, so an exact fee of 0 is mapped to `undefined`; the
instruction list is only used to scope the fee-sample RPC query, which is
abstracted into `fetchResult`. Returns micro-lamports as the final
`BigInt(....toFixed(0, ROUND_DOWN))`. -/
def calculatePriorityFee (fetchResult : Except Unit (List RecentPrioritizationFees))
    (computeUnit : ℚ) (options : TransactionExecutionOptions) : ℤ :=
  let exactPriorityFeeSol : Option ℚ :=
    match options.exactPriorityFeeSol with
    | some v => if v = 0 then none else some v
    | none => none
  match exactPriorityFeeSol with
  | some v =>
      bnTrunc ((v * LAMPORTS_PER_SOL - BASE_FEE_LAMPORTS)
        / computeUnit / LAMPORTS_PER_MICRO_LAMPORT)
  | none =>
      let priorityLevel := options.priorityLevel.getD .medium
      let maxPriorityFeeSol := options.maxPriorityFeeSol.getD DEFAULT_MAX_PRIORITY_FEE
      let maxPriorityFeePerCU := (maxPriorityFeeSol * LAMPORTS_PER_SOL - BASE_FEE_LAMPORTS)
        / computeUnit / LAMPORTS_PER_MICRO_LAMPORT
      bnTrunc (getRecentPriorityFee fetchResult priorityLevel maxPriorityFeePerCU)

/-- Embeds `addPriorityFeeInstructions` (`src/unnamed/part_003`, lines
207-243): scan for existing limit/price instructions, then `unshift` a
compute-unit-limit instruction when absent, then `unshift` a
compute-unit-price instruction when absent, priced by
`calculatePriorityFee`. -/
def addPriorityFeeInstructions (fetchResult : Except Unit (List RecentPrioritizationFees))
    (options : TransactionExecutionOptions) (computeUnit : Nat)
    (instructions : List TransactionInstruction) : List TransactionInstruction :=
  let hasComputeUnitLimitInstruction := instructions.any isComputeUnitLimitIx
  let hasComputeUnitPriceInstruction := instructions.any isComputeUnitPriceIx
  let instructions1 :=
    if hasComputeUnitLimitInstruction then instructions
    else setComputeUnitLimit computeUnit :: instructions
  if hasComputeUnitPriceInstruction then instructions1
  else setComputeUnitPrice
    (calculatePriorityFee fetchResult (computeUnit : ℚ) options) :: instructions1

/-! ### Transaction data and construction-time validation -/

/-- One entry of the `transactionsData` array passed to the payload
constructors. The fee payer is typed as required in TypeScript but checked
for null-ness at runtime, so it is modelled as an `Option`; signers and
lookup tables do not influence the verified logic. -/
structure TransactionData where
  instructions : List TransactionInstruction
  feePayer : Option Nat
deriving DecidableEq

/-- The configuration errors thrown by `validateTransactionData` (each tag
corresponds to one `throw new Error(...)` site). -/
inductive ConfigError where
  | noTransactions
  | noInstructions (index : Nat)
  | missingFeePayer (index : Nat)
deriving DecidableEq

/-- The per-entry loop of `validateTransactionData`: for each entry, in
order, first the instruction list is checked to be non-empty and then the
fee payer to be present; the first violation is thrown. -/
def validateEntriesFrom (index : Nat) : List TransactionData → Except ConfigError Unit
  | [] => .ok ()
  | d :: rest =>
      if d.instructions.length = 0 then .error (.noInstructions index)
      else if d.feePayer = none then .error (.missingFeePayer index)
      else validateEntriesFrom (index + 1) rest

/-- Embeds `MultiTransactionPayload.validateTransactionData`
(`src/src/payload/multiTransactionPayload.ts`, lines 89-102). -/
def validateTransactionData (transactionsData : List TransactionData) :
    Except ConfigError Unit :=
  if transactionsData.length = 0 then .error .noTransactions
  else validateEntriesFrom 0 transactionsData

/-- Embeds the `MultiTransactionPayload` constructor, which runs
`validateTransactionData` before anything else (so an invalid batch throws
before any network call: the constructor is a pure function). -/
def mkMultiTransactionPayload (transactionsData : List TransactionData) :
    Except ConfigError (List TransactionData) :=
  match validateTransactionData transactionsData with
  | .error e => .error e
  | .ok _ => .ok transactionsData

/-- Embeds the single-transaction `TransactionPayload` constructor
(`src/src/payload/multiTransactionPayload.ts`, lines 470-480), whose body
is empty: it performs no validation at all. -/
def mkTransactionPayload (transactionData : TransactionData) :
    Except ConfigError TransactionData :=
  .ok transactionData

/-! ### Batch simulation and execution (`MultiTransactionPayload`) -/

/-- The part of `web3.SimulatedTransactionResponse` the pipeline reads. -/
structure SimulatedTransactionResponse where
  unitsConsumed : Option Nat
deriving DecidableEq

/-- Embeds the per-index simulation part of `MultiTransactionPayload.simulate`
(`src/unnamed/part_003`, lines 138-178): each index is simulated (the RPC
outcome for index `i` is `simOf i`); failing indices are collected with
their translated errors, and if any failed a single aggregate
`MultiTransactionSimulationError` carrying all of them is thrown, else the
map of successful results is returned. The collected order is modelled as
index order (the source pushes in promise-completion order; the set of
entries is the same). -/
def multiSimulate (simOf : Nat → Except String SimulatedTransactionResponse)
    (n : Nat) :
    Except (List (Nat × String)) (List (Nat × SimulatedTransactionResponse)) :=
  let simulationErrors := (List.range n).filterMap fun i =>
    match simOf i with
    | .error e => some (i, e)
    | .ok _ => none
  let simulationResult := (List.range n).filterMap fun i =>
    match simOf i with
    | .ok r => some (i, r)
    | .error _ => none
  if simulationErrors.isEmpty then .ok simulationResult else .error simulationErrors

/-- The compiled `web3.VersionedTransaction`: message fields produced by
`compileToV0Message` that the pipeline later reads. -/
structure VersionedTransaction where
  instructions : List TransactionInstruction
  payerKey : Option Nat
  recentBlockhash : Nat
deriving DecidableEq

/-- Embeds the per-entry body of `buildVersionTransactions`. -/
def buildVersionTransaction (blockhash : Nat) (d : TransactionData) :
    VersionedTransaction :=
  ⟨d.instructions, d.feePayer, blockhash⟩

/-- A `PromiseSettledResult<string>`: the settled outcome of one
transaction's send/confirm race. -/
inductive SettledResult where
  | fulfilled (value : String)
  | rejected (reason : String)
deriving DecidableEq

/-- One element of `MultiTransactionPayloadExecuteReturn`: the settled
result spread together with `transactionData` and `transaction`. -/
structure ExecutionOutcome where
  result : SettledResult
  transactionData : TransactionData
  transaction : VersionedTransaction
deriving DecidableEq

/-- Errors that `MultiTransactionPayload.execute` can raise before
returning outcomes: the aggregate simulation error, or the `assert`
failures on result-length mismatch. -/
inductive ExecuteError where
  | multiSimulation (simulationErrors : List (Nat × String))
  | resultsLengthMismatch
deriving DecidableEq

/-- The compute-unit budget derivation in `execute` (`src/unnamed/part_003`,
lines 306-311): `simulationResult?.value.unitsConsumed` is truthy (present
and non-zero) → `Math.floor((unitsConsumed + 400) * 1.1)`, else
`MAX_COMPUTE_UNIT`. -/
def computeUnitFor (simResult : Option SimulatedTransactionResponse) : Nat :=
  match simResult with
  | some r =>
      match r.unitsConsumed with
      | some u =>
          if u = 0 then MAX_COMPUTE_UNIT
          else ((u + COMPUTE_BUDGET_PROGRAM_COMPUTE_UNIT) * 11) / 10
      | none => MAX_COMPUTE_UNIT
  | none => MAX_COMPUTE_UNIT

/-- Index-aware map, used to model the `map((data, i) => ...)` loops. -/
def mapWithIndexFrom (f : Nat → α → β) : Nat → List α → List β
  | _, [] => []
  | i, a :: l => f i a :: mapWithIndexFrom f (i + 1) l

/-- The priority-fee injection pass of `execute`: every request gets
`addPriorityFeeInstructions` applied to its instruction list with its own
simulated compute-unit budget. -/
def injectAll (fetchResult : Except Unit (List RecentPrioritizationFees))
    (options : TransactionExecutionOptions)
    (simMap : List (Nat × SimulatedTransactionResponse))
    (transactionsData : List TransactionData) : List TransactionData :=
  mapWithIndexFrom
    (fun i d =>
      { d with instructions :=
          (addPriorityFeeInstructions fetchResult options
            (computeUnitFor (simMap.lookup i)) d.instructions) })
    0 transactionsData

/-- The final zip of `execute` (`src/unnamed/part_003`, lines 367-373):
`results.map((result, i) => ({...result, transactionData: data[i],
transaction: transactions[i]}))`. -/
def zipOutcomes : List SettledResult → List TransactionData →
    List VersionedTransaction → List ExecutionOutcome
  | r :: rs, d :: ds, t :: ts => ⟨r, d, t⟩ :: zipOutcomes rs ds ts
  | _, _, _ => []

/-- The build/sign/settle tail of `execute`: build one versioned
transaction per request, sign them all in one call, settle each signed
transaction (the send/confirm coordinator for one transaction is abstracted
as `settle`), check the `assert`s, and zip. The second component is the
list of signed transactions handed to the send/confirm stage. -/
def sendAndSettlePhase (signAllTransactions : List VersionedTransaction →
      List VersionedTransaction)
    (settle : VersionedTransaction → SettledResult) (blockhash : Nat)
    (transactionsData : List TransactionData) :
    Except ExecuteError (List ExecutionOutcome) × List VersionedTransaction :=
  let transactions := transactionsData.map (buildVersionTransaction blockhash)
  let signedTransactions := signAllTransactions transactions
  let results := signedTransactions.map settle
  if results.length = transactionsData.length ∧ results.length = transactions.length then
    (.ok (zipOutcomes results transactionsData transactions), signedTransactions)
  else (.error .resultsLengthMismatch, signedTransactions)

/-- Embeds `MultiTransactionPayload.execute` (`src/unnamed/part_003`, lines
290-376): when the priority fee is enabled, first simulate every request;
any simulation failure aborts with the aggregate error before any
transaction reaches the send stage (second component `[]`); otherwise the
injected requests are built, signed and settled, and the settled results
are zipped index-wise with the requests and compiled transactions. -/
def executeBatch (enablePriorityFee : Bool)
    (simOf : Nat → Except String SimulatedTransactionResponse)
    (fetchResult : Except Unit (List RecentPrioritizationFees))
    (options : TransactionExecutionOptions)
    (signAllTransactions : List VersionedTransaction → List VersionedTransaction)
    (settle : VersionedTransaction → SettledResult) (blockhash : Nat)
    (transactionsData : List TransactionData) :
    Except ExecuteError (List ExecutionOutcome) × List VersionedTransaction :=
  if enablePriorityFee then
    match multiSimulate simOf transactionsData.length with
    | .error errs => (.error (.multiSimulation errs), [])
    | .ok simMap =>
        sendAndSettlePhase signAllTransactions settle blockhash
          (injectAll fetchResult options simMap transactionsData)
  else sendAndSettlePhase signAllTransactions settle blockhash transactionsData

/-! ### The sending retry loop (`sendTransactionWithRetry`) -/

/-- The observable outcome of one iteration of the send loop: a successful
`sendRawTransaction` followed by the next observed block height, the
"already processed" response, the transiently-retryable "Blockhash not
found" response followed by the next observed block height, or any other
error. -/
inductive SendAttemptOutcome where
  | sent (nextBlockHeight : Nat)
  | alreadyProcessed
  | blockhashNotFound (nextBlockHeight : Nat)
  | fatal (message : String)

/-- How `sendTransactionWithRetry` exits, one tag per exit site of the
source: the early `return` on "already processed", the fall-through past
the loop with the height bound not reached (retry budget exhausted), the
`throw` of the block-height-exceeded error, and the rethrow of any other
send error. -/
inductive SendExitKind where
  | returnedAlreadyProcessed
  | returnedAfterLoop
  | blockHeightExceeded
  | raisedFatal (message : String)
deriving DecidableEq

/-- Whether an exit raises, and with which message; `none` is a successful
return. -/
def sendExitRaises : SendExitKind → Option String
  | .returnedAlreadyProcessed => none
  | .returnedAfterLoop => none
  | .blockHeightExceeded => some "Block height exceeded before confirmation"
  | .raisedFatal message => some message

/-- Embeds `sendTransactionWithRetry`
(`src/src/payload/multiTransactionPayload.ts`, lines 290-334). The RPC
environment is the function `attempt` giving the outcome of the `i`-th
loop iteration; `retry` and `blockHeight` are the loop state (the caller
starts with `retry = 0` and the initially fetched height); `fuel` bounds
the number of unfoldings, `none` meaning the loop has not terminated
within the fuel. Returns the final observed block height and the exit. -/
def sendTransactionWithRetryLoop (lastValidBlockHeight maxRetries : Nat)
    (attempt : Nat → SendAttemptOutcome) :
    Nat → Nat → Nat → Nat → Option (Nat × SendExitKind)
  | _, _, _, 0 => none
  | i, retry, blockHeight, fuel + 1 =>
    if blockHeight < lastValidBlockHeight ∧ retry < maxRetries then
      match attempt i with
      | .sent nextHeight =>
          sendTransactionWithRetryLoop lastValidBlockHeight maxRetries attempt
            (i + 1) (retry + 1) nextHeight fuel
      | .alreadyProcessed => some (blockHeight, .returnedAlreadyProcessed)
      | .blockhashNotFound nextHeight =>
          sendTransactionWithRetryLoop lastValidBlockHeight maxRetries attempt
            (i + 1) (retry + 1) nextHeight fuel
      | .fatal message => some (blockHeight, .raisedFatal message)
    else if lastValidBlockHeight ≤ blockHeight then
      some (blockHeight, .blockHeightExceeded)
    else some (blockHeight, .returnedAfterLoop)

/-! ### Properties of the comparator and the stable sort -/

/-- Expresses `ROUND_CEIL` through the floor function, which concrete
evaluation handles. -/
lemma bnCeil_eq_neg_floor_neg (q : ℚ) : bnCeil q = -⌊-q⌋ := by
  rw [bnCeil, Int.floor_neg, neg_neg]

/-- On non-NaN fees, the comparator orders by the fee value. -/
lemma bnComparedTo_some_le {q r : ℚ} : bnComparedTo (some q) (some r) ≤ 0 ↔ q ≤ r := by
  show (if q < r then (-1 : ℤ) else if r < q then 1 else 0) ≤ 0 ↔ q ≤ r
  split_ifs with h1 h2
  · simp [le_of_lt h1]
  · simp [not_le.mpr h2]
  · simp [not_lt.mp h2]

lemma feeLE_total (x y : RecentPrioritizationFees) : feeLE x y = true ∨ feeLE y x = true := by
  simp only [feeLE, decide_eq_true_eq]
  cases hx : x.prioritizationFee with
  | none => left; simp [bnComparedTo]
  | some q =>
    cases hy : y.prioritizationFee with
    | none => left; simp [bnComparedTo]
    | some r =>
      rw [bnComparedTo_some_le, bnComparedTo_some_le]
      exact le_total q r

lemma feeLE_trans {x y z : RecentPrioritizationFees}
    (hx : x.prioritizationFee.isSome) (hy : y.prioritizationFee.isSome)
    (hz : z.prioritizationFee.isSome)
    (hxy : feeLE x y = true) (hyz : feeLE y z = true) : feeLE x z = true := by
  obtain ⟨q, hq⟩ := Option.isSome_iff_exists.mp hx
  obtain ⟨r, hr⟩ := Option.isSome_iff_exists.mp hy
  obtain ⟨s, hs⟩ := Option.isSome_iff_exists.mp hz
  simp only [feeLE, decide_eq_true_eq, hq, hr, hs, bnComparedTo_some_le] at *
  exact le_trans hxy hyz

lemma mem_jsOrderedInsert {le : α → α → Bool} {a x : α} :
    ∀ {l : List α}, x ∈ jsOrderedInsert le a l ↔ x = a ∨ x ∈ l
  | [] => by simp [jsOrderedInsert]
  | b :: t => by
    rw [jsOrderedInsert]
    by_cases h : le a b
    · simp [h]
    · simp only [h, if_neg, Bool.false_eq_true, ite_false, List.mem_cons,
        mem_jsOrderedInsert (l := t)]
      tauto

lemma mem_jsStableSort {le : α → α → Bool} {x : α} :
    ∀ {l : List α}, x ∈ jsStableSort le l ↔ x ∈ l
  | [] => Iff.rfl
  | a :: t => by
    rw [jsStableSort, mem_jsOrderedInsert, mem_jsStableSort (l := t), List.mem_cons]

/-- Inserting into a sorted list keeps it sorted, provided the comparator is
total and is transitive on elements satisfying `P`. -/
lemma pairwise_jsOrderedInsert {le : α → α → Bool} {P : α → Prop}
    (total : ∀ x y, le x y = true ∨ le y x = true)
    (htrans : ∀ x y z, P x → P y → P z →
      le x y = true → le y z = true → le x z = true)
    {a : α} (hPa : P a) :
    ∀ {l : List α}, (∀ x ∈ l, P x) → l.Pairwise (fun u v => le u v = true) →
      (jsOrderedInsert le a l).Pairwise (fun u v => le u v = true)
  | [], _, _ => by simp [jsOrderedInsert]
  | b :: t, hPl, h => by
    rw [jsOrderedInsert]
    by_cases hab : le a b
    · simp only [hab, ite_true]
      refine List.Pairwise.cons ?_ h
      intro x hx
      rcases List.mem_cons.mp hx with rfl | hxt
      · exact hab
      · exact htrans a b x hPa (hPl b (by simp)) (hPl x (by simp [hxt])) hab
          (List.rel_of_pairwise_cons h hxt)
    · simp only [hab, Bool.false_eq_true, ite_false]
      refine List.Pairwise.cons ?_ (pairwise_jsOrderedInsert total htrans hPa
        (fun x hx => hPl x (by simp [hx])) (List.Pairwise.of_cons h))
      intro x hx
      rcases mem_jsOrderedInsert.mp hx with rfl | hxt
      · rcases total x b with hr | hr
        · exact absurd hr hab
        · exact hr
      · exact List.rel_of_pairwise_cons h hxt

lemma pairwise_jsStableSort {le : α → α → Bool} {P : α → Prop}
    (total : ∀ x y, le x y = true ∨ le y x = true)
    (htrans : ∀ x y z, P x → P y → P z →
      le x y = true → le y z = true → le x z = true) :
    ∀ {l : List α}, (∀ x ∈ l, P x) →
      (jsStableSort le l).Pairwise (fun u v => le u v = true)
  | [], _ => List.Pairwise.nil
  | a :: t, hPl => by
    rw [jsStableSort]
    exact pairwise_jsOrderedInsert total htrans (hPl a (by simp))
      (fun x hx => hPl x (by simp [mem_jsStableSort.mp hx]))
      (pairwise_jsStableSort total htrans (fun x hx => hPl x (by simp [hx])))

/-- Sorting a list that is already sorted returns it unchanged. -/
lemma jsStableSort_of_pairwise {le : α → α → Bool} :
    ∀ {l : List α}, l.Pairwise (fun u v => le u v = true) → jsStableSort le l = l
  | [], _ => rfl
  | a :: t, h => by
    rw [jsStableSort, jsStableSort_of_pairwise (List.Pairwise.of_cons h)]
    cases t with
    | nil => rfl
    | cons b s =>
      rw [jsOrderedInsert, if_pos (List.rel_of_pairwise_cons h (by simp))]

lemma feeKeep_spec {x : RecentPrioritizationFees} :
    feeKeep x = true ↔ ∃ q : ℚ, x.prioritizationFee = some q ∧ 0 < q := by
  unfold feeKeep
  cases hx : x.prioritizationFee with
  | none => simp
  | some q => simp

example : replaceNonZeroAndSortPrioritizationFeesAsc
    [⟨1, some 5⟩, ⟨2, none⟩, ⟨3, some 2⟩, ⟨4, some 0⟩, ⟨5, some 2⟩]
    = [⟨3, some 2⟩, ⟨5, some 2⟩, ⟨1, some 5⟩] := by
  norm_num [replaceNonZeroAndSortPrioritizationFeesAsc, jsStableSort, jsOrderedInsert,
    feeKeep, feeLE, bnComparedTo, List.filter]

example : medianFee [⟨0, some 1⟩, ⟨1, some 2⟩] = 1 := by
  norm_num [medianFee, bnOfFee, bnTrunc, defaultFeeEntry]

example : medianFee [⟨0, some 1⟩, ⟨1, some 2⟩, ⟨2, some 7⟩] = 2 := by
  norm_num [medianFee, bnOfFee, bnTrunc, defaultFeeEntry]

example : getRecentPriorityFee (.ok [⟨1, some 3⟩]) .low 1000000 = 3 := by
  norm_num [getRecentPriorityFee, calculatedFeeFor, bnCeil_eq_neg_floor_neg, multipliers,
    replaceNonZeroAndSortPrioritizationFeesAsc, jsStableSort, jsOrderedInsert,
    feeKeep, feeLE, bnComparedTo, List.filter, medianFee, bnOfFee, bnTrunc, defaultFeeEntry,
    min_def]

example : getRecentPriorityFee (.error ()) .medium 700 = 700 := by
  norm_num [getRecentPriorityFee, fallbackFees]

/-- C6: for every fee-sample list, `replaceNonZeroAndSortPrioritizationFeesAsc`
produces a list sorted ascending by fee-rate, containing no NaN and no
non-positive fee-rates, and the operation is idempotent: applying it to
its own output yields the same sequence. -/
theorem replaceNonZeroAndSort_filter_sorted_idempotent
    (recentPrioritizationFees : List RecentPrioritizationFees) :
    (replaceNonZeroAndSortPrioritizationFeesAsc recentPrioritizationFees).Pairwise
      (fun a b => feeLE a b = true)
    ∧ (∀ x ∈ replaceNonZeroAndSortPrioritizationFeesAsc recentPrioritizationFees,
        ∃ q : ℚ, x.prioritizationFee = some q ∧ 0 < q)
    ∧ replaceNonZeroAndSortPrioritizationFeesAsc
        (replaceNonZeroAndSortPrioritizationFeesAsc recentPrioritizationFees)
      = replaceNonZeroAndSortPrioritizationFeesAsc recentPrioritizationFees := by
  have hmemP : ∀ x ∈ recentPrioritizationFees.filter feeKeep,
      ∃ q : ℚ, x.prioritizationFee = some q ∧ 0 < q := by
    intro x hx
    exact feeKeep_spec.mp (List.of_mem_filter hx)
  have hsorted : (replaceNonZeroAndSortPrioritizationFeesAsc
      recentPrioritizationFees).Pairwise (fun u v => feeLE u v = true) := by
    refine pairwise_jsStableSort (P := fun x => x.prioritizationFee.isSome = true)
      feeLE_total (fun x y z hx hy hz => feeLE_trans hx hy hz) ?_
    intro x hx
    obtain ⟨q, hq, _⟩ := hmemP x hx
    simp [hq]
  have hmem_sorted : ∀ x ∈ replaceNonZeroAndSortPrioritizationFeesAsc
      recentPrioritizationFees, ∃ q : ℚ, x.prioritizationFee = some q ∧ 0 < q := by
    intro x hx
    exact hmemP x (mem_jsStableSort.mp hx)
  refine ⟨hsorted, hmem_sorted, ?_⟩
  show jsStableSort feeLE ((replaceNonZeroAndSortPrioritizationFeesAsc
      recentPrioritizationFees).filter feeKeep) = _
  rw [List.filter_eq_self.mpr (fun a ha => feeKeep_spec.mpr (hmem_sorted a ha)),
    jsStableSort_of_pairwise hsorted]

/-- C4: for every fee-sample fetch outcome (success with any sample list,
including the empty one, or the fallback path on fetch failure), the fee
returned by `getRecentPriorityFee` is at most the supplied maximum fee cap. -/
theorem getRecentPriorityFee_le_cap
    (fetchResult : Except Unit (List RecentPrioritizationFees))
    (priorityLevel : PriorityLevel) (maxFeeCap : ℚ) :
    getRecentPriorityFee fetchResult priorityLevel maxFeeCap ≤ maxFeeCap := by
  cases fetchResult with
  | ok recent => exact min_le_right _ _
  | error e => exact min_le_right _ _

/-- C5 counterexample: for the single filtered, sorted sample with fee 1/2,
the median computed by the code is 0 (the middle element is rounded down),
not the sample itself — refuting the clause "for a single sample it equals
that sample" of the claim as stated. -/
theorem medianFee_single_fractional_sample :
    medianFee (replaceNonZeroAndSortPrioritizationFeesAsc [⟨0, some (1/2)⟩]) = 0
    ∧ ((1 : ℚ)/2 ≠ 0) := by
  constructor
  · norm_num [replaceNonZeroAndSortPrioritizationFeesAsc, jsStableSort, jsOrderedInsert,
      feeKeep, List.filter, medianFee, bnOfFee, bnTrunc, defaultFeeEntry]
  · norm_num

/-- C5 (amended): for a non-empty filtered, sorted sample list the median
equals the middle element rounded down when the length is odd, and the
average of the two middle elements rounded down when the length is even;
a single sample yields that sample rounded down (hence the sample itself
exactly when it is integral); an empty filtered list yields zero. -/
theorem medianFee_policy :
    (∀ (l : List RecentPrioritizationFees) (q : ℚ),
      l.length % 2 = 1 →
      (l.getD (l.length / 2) defaultFeeEntry).prioritizationFee = some q →
      0 ≤ q →
      medianFee l = ((⌊q⌋ : ℤ) : ℚ))
    ∧ (∀ (l : List RecentPrioritizationFees) (q r : ℚ),
      l ≠ [] → l.length % 2 = 0 →
      (l.getD (l.length / 2 - 1) defaultFeeEntry).prioritizationFee = some q →
      (l.getD (l.length / 2) defaultFeeEntry).prioritizationFee = some r →
      0 ≤ q + r →
      medianFee l = ((⌊(q + r) / 2⌋ : ℤ) : ℚ))
    ∧ (∀ (s : Nat) (z : ℕ), medianFee [⟨s, some (z : ℚ)⟩] = (z : ℚ))
    ∧ medianFee [] = 0 := by
  have h1 : ∀ (l : List RecentPrioritizationFees) (q : ℚ),
      l.length % 2 = 1 →
      (l.getD (l.length / 2) defaultFeeEntry).prioritizationFee = some q →
      0 ≤ q →
      medianFee l = ((⌊q⌋ : ℤ) : ℚ) := by
    intro l q hodd hq hq0
    have hpos : 0 < l.length := by omega
    have hq2 : (l[l.length / 2]?.getD defaultFeeEntry).prioritizationFee = some q := by
      simpa [List.getD] using hq
    rw [medianFee, if_pos hpos]
    simp only [hodd]
    norm_num [List.getD, hq2, bnOfFee, bnTrunc, if_pos hq0]
  refine ⟨h1, ?_, ?_, rfl⟩
  · intro l q r hne heven hq hr hsum
    have hpos : 0 < l.length := List.length_pos.mpr hne
    have hq2 : (l[l.length / 2 - 1]?.getD defaultFeeEntry).prioritizationFee = some q := by
      simpa [List.getD] using hq
    have hr2 : (l[l.length / 2]?.getD defaultFeeEntry).prioritizationFee = some r := by
      simpa [List.getD] using hr
    rw [medianFee, if_pos hpos]
    simp only [heven]
    norm_num [List.getD, hq2, hr2, bnOfFee, bnTrunc,
      if_pos (by positivity : (0:ℚ) ≤ (q + r) / 2)]
  · intro s z
    have := h1 [⟨s, some (z : ℚ)⟩] (z : ℚ) (by simp) (by simp) (by positivity)
    simpa using this

/-- C7 counterexample: with the single sample 3 and level `low`, the code
returns 3 = ceil(3 × 0.8), while the claimed round-down for the low level
would give floor(3 × 0.8) = 2 — so the low level does not round down. -/
theorem low_level_rounds_up_not_down :
    getRecentPriorityFee (.ok [⟨1, some 3⟩]) .low 1000000 = 3
    ∧ medianFee (replaceNonZeroAndSortPrioritizationFeesAsc [⟨1, some 3⟩])
        * multipliers .low = 12/5
    ∧ ((⌊(12 : ℚ)/5⌋ : ℤ) : ℚ) = 2
    ∧ (3 : ℚ) ≠ 2 := by
  refine ⟨?_, ?_, by norm_num, by norm_num⟩
  · norm_num [getRecentPriorityFee, calculatedFeeFor, bnCeil_eq_neg_floor_neg, multipliers,
      replaceNonZeroAndSortPrioritizationFeesAsc, jsStableSort, jsOrderedInsert,
      feeKeep, List.filter, medianFee, bnOfFee, bnTrunc, defaultFeeEntry, min_def]
  · norm_num [multipliers, replaceNonZeroAndSortPrioritizationFeesAsc, jsStableSort,
      jsOrderedInsert, feeKeep, List.filter, medianFee, bnOfFee, bnTrunc, defaultFeeEntry]

/-- C7 (amended): the priority-level multipliers satisfy
low < 1.0 ≤ medium < high, and for every priority level the multiplied
median is rounded up (toward positive infinity): the pre-cap fee is the
unique integer in the half-open interval [median × multiplier,
median × multiplier + 1); the estimator then only caps this value. -/
theorem priority_multipliers_and_ceil_rounding :
    (multipliers .low < 1 ∧ 1 ≤ multipliers .medium
      ∧ multipliers .medium < multipliers .high)
    ∧ (∀ (recent : List RecentPrioritizationFees) (priorityLevel : PriorityLevel),
        medianFee (replaceNonZeroAndSortPrioritizationFeesAsc recent)
            * multipliers priorityLevel
          ≤ calculatedFeeFor recent priorityLevel
        ∧ calculatedFeeFor recent priorityLevel
          < medianFee (replaceNonZeroAndSortPrioritizationFeesAsc recent)
              * multipliers priorityLevel + 1)
    ∧ (∀ (recent : List RecentPrioritizationFees) (priorityLevel : PriorityLevel)
        (maxFeeCap : ℚ),
        getRecentPriorityFee (.ok recent) priorityLevel maxFeeCap
          = min (calculatedFeeFor recent priorityLevel) maxFeeCap) := by
  refine ⟨⟨by norm_num [multipliers], by norm_num [multipliers],
    by norm_num [multipliers]⟩, ?_, fun _ _ _ => rfl⟩
  intro recent priorityLevel
  constructor
  · simpa [calculatedFeeFor, bnCeil] using
      Int.le_ceil (medianFee (replaceNonZeroAndSortPrioritizationFeesAsc recent)
        * multipliers priorityLevel)
  · simpa [calculatedFeeFor, bnCeil] using
      Int.ceil_lt_add_one (medianFee (replaceNonZeroAndSortPrioritizationFeesAsc recent)
        * multipliers priorityLevel)

/-! ### Budget injector -/

lemma isComputeUnitLimitIx_setLimit (units : Nat) :
    isComputeUnitLimitIx (setComputeUnitLimit units) = true := by
  norm_num [isComputeUnitLimitIx, setComputeUnitLimit, decodeComputeBudgetIxKind]

lemma isComputeUnitPriceIx_setLimit (units : Nat) :
    isComputeUnitPriceIx (setComputeUnitLimit units) = false := by
  norm_num [isComputeUnitPriceIx, setComputeUnitLimit, decodeComputeBudgetIxKind]
  decide

lemma isComputeUnitLimitIx_setPrice (microLamports : ℤ) :
    isComputeUnitLimitIx (setComputeUnitPrice microLamports) = false := by
  norm_num [isComputeUnitLimitIx, setComputeUnitPrice, decodeComputeBudgetIxKind]
  decide

lemma isComputeUnitPriceIx_setPrice (microLamports : ℤ) :
    isComputeUnitPriceIx (setComputeUnitPrice microLamports) = true := by
  norm_num [isComputeUnitPriceIx, setComputeUnitPrice, decodeComputeBudgetIxKind]

/-- The injector output always contains a compute-unit-limit instruction. -/
lemma any_limit_addPriorityFeeInstructions (fetchResult options computeUnit)
    (instructions : List TransactionInstruction) :
    (addPriorityFeeInstructions fetchResult options computeUnit instructions).any
      isComputeUnitLimitIx = true := by
  unfold addPriorityFeeInstructions
  by_cases hL : instructions.any isComputeUnitLimitIx
    <;> by_cases hP : instructions.any isComputeUnitPriceIx
    <;> simp [hL, hP, isComputeUnitLimitIx_setLimit, isComputeUnitLimitIx_setPrice]

/-- The injector output always contains a compute-unit-price instruction. -/
lemma any_price_addPriorityFeeInstructions (fetchResult options computeUnit)
    (instructions : List TransactionInstruction) :
    (addPriorityFeeInstructions fetchResult options computeUnit instructions).any
      isComputeUnitPriceIx = true := by
  unfold addPriorityFeeInstructions
  by_cases hL : instructions.any isComputeUnitLimitIx
    <;> by_cases hP : instructions.any isComputeUnitPriceIx
    <;> simp [hL, hP, isComputeUnitPriceIx_setLimit, isComputeUnitPriceIx_setPrice]

/-- C3 counterexample: an input that already contains two compute-unit-limit
instructions passes through the injector unchanged, so the result contains
two such instructions — refuting "the result never contains more than one
compute-unit-limit instruction" as universally stated. -/
theorem addPriorityFeeInstructions_duplicate_limits_kept :
    List.countP isComputeUnitLimitIx
      (addPriorityFeeInstructions (.error ()) ⟨none, none, none⟩ 100
        [setComputeUnitLimit 5, setComputeUnitLimit 6, setComputeUnitPrice 7]) = 2 := by
  norm_num [addPriorityFeeInstructions, List.any_cons, List.countP_cons,
    isComputeUnitLimitIx_setLimit, isComputeUnitLimitIx_setPrice,
    isComputeUnitPriceIx_setLimit, isComputeUnitPriceIx_setPrice]

/-- C3 (amended): the budget injector is idempotent — applying it a second
time (even with different fetch results, options or compute budget) inserts
nothing — and each application inserts at most one compute-unit-limit and
at most one compute-unit-price instruction, so the output counts are
bounded by `max 1` of the input counts (duplicates can only come from the
input); detection is by compute-budget program id plus opcode, as embedded
in `isComputeUnitLimitIx`/`isComputeUnitPriceIx`. -/
theorem addPriorityFeeInstructions_idempotent
    (fetchResult options computeUnit fetchResult2 options2 computeUnit2)
    (instructions : List TransactionInstruction) :
    addPriorityFeeInstructions fetchResult2 options2 computeUnit2
        (addPriorityFeeInstructions fetchResult options computeUnit instructions)
      = addPriorityFeeInstructions fetchResult options computeUnit instructions
    ∧ List.countP isComputeUnitLimitIx
        (addPriorityFeeInstructions fetchResult options computeUnit instructions)
      ≤ max 1 (List.countP isComputeUnitLimitIx instructions)
    ∧ List.countP isComputeUnitPriceIx
        (addPriorityFeeInstructions fetchResult options computeUnit instructions)
      ≤ max 1 (List.countP isComputeUnitPriceIx instructions) := by
  refine ⟨?_, ?_, ?_⟩
  · have hL2 := any_limit_addPriorityFeeInstructions fetchResult options computeUnit
      instructions
    have hP2 := any_price_addPriorityFeeInstructions fetchResult options computeUnit
      instructions
    rw [addPriorityFeeInstructions, hL2, hP2]
    simp
  · by_cases hL : instructions.any isComputeUnitLimitIx
      <;> by_cases hP : instructions.any isComputeUnitPriceIx
      <;> simp only [addPriorityFeeInstructions, hL, hP, if_true, if_false,
        Bool.false_eq_true, ite_true, ite_false, List.countP_cons,
        isComputeUnitLimitIx_setLimit, isComputeUnitLimitIx_setPrice]
    · exact le_max_right _ _
    · simp only [ite_false, Bool.false_eq_true, add_zero]
      exact le_max_right _ _
    · have h0 : List.countP isComputeUnitLimitIx instructions = 0 := by
        rw [List.countP_eq_zero]
        intro a ha hlim
        exact hL (List.any_eq_true.mpr ⟨a, ha, hlim⟩)
      simp [h0]
    · have h0 : List.countP isComputeUnitLimitIx instructions = 0 := by
        rw [List.countP_eq_zero]
        intro a ha hlim
        exact hL (List.any_eq_true.mpr ⟨a, ha, hlim⟩)
      simp [h0]
  · by_cases hL : instructions.any isComputeUnitLimitIx
      <;> by_cases hP : instructions.any isComputeUnitPriceIx
      <;> simp only [addPriorityFeeInstructions, hL, hP, if_true, if_false,
        Bool.false_eq_true, ite_true, ite_false, List.countP_cons,
        isComputeUnitPriceIx_setLimit, isComputeUnitPriceIx_setPrice]
    · exact le_max_right _ _
    · have h0 : List.countP isComputeUnitPriceIx instructions = 0 := by
        rw [List.countP_eq_zero]
        intro a ha hpr
        exact hP (List.any_eq_true.mpr ⟨a, ha, hpr⟩)
      simp [h0]
    · simp only [ite_false, Bool.false_eq_true, add_zero]
      exact le_max_right _ _
    · have h0 : List.countP isComputeUnitPriceIx instructions = 0 := by
        rw [List.countP_eq_zero]
        intro a ha hpr
        exact hP (List.any_eq_true.mpr ⟨a, ha, hpr⟩)
      simp [h0]

/-- C10: a caller-supplied `exactPriorityFeeSol` equal to 0 is treated as
absent by the truthiness guard, so the fee is obtained from estimation (or
its fallback) exactly as when the option is omitted; in particular, on the
fallback path with the default cap the fee is 5000 micro-lamports, not the
requested 0 — an explicit zero priority fee cannot be requested. -/
theorem exact_zero_priority_fee_uses_estimation :
    (∀ (fetchResult : Except Unit (List RecentPrioritizationFees)) (computeUnit : ℚ)
      (priorityLevel : Option PriorityLevel) (maxPriorityFeeSol : Option ℚ),
      calculatePriorityFee fetchResult computeUnit
          ⟨priorityLevel, maxPriorityFeeSol, some 0⟩
        = calculatePriorityFee fetchResult computeUnit
          ⟨priorityLevel, maxPriorityFeeSol, none⟩)
    ∧ calculatePriorityFee (.error ()) 200000 ⟨none, none, some 0⟩ = 5000 := by
  constructor
  · intro fetchResult computeUnit priorityLevel maxPriorityFeeSol
    simp [calculatePriorityFee]
  · norm_num [calculatePriorityFee, getRecentPriorityFee, fallbackFees,
      DEFAULT_MAX_PRIORITY_FEE, LAMPORTS_PER_SOL, BASE_FEE_LAMPORTS,
      LAMPORTS_PER_MICRO_LAMPORT, bnTrunc, min_def]

/-! ### Construction-time validation -/

/-- The entry loop errors exactly on a batch containing an entry with an
empty instruction list or a missing fee payer. -/
lemma validateEntriesFrom_error_iff :
    ∀ (l : List TransactionData) (s : Nat),
      (∃ e, validateEntriesFrom s l = .error e)
        ↔ ∃ i, ∃ h : i < l.length,
            l[i].instructions = [] ∨ l[i].feePayer = none
  | [], s => by simp [validateEntriesFrom]
  | d :: rest, s => by
    rw [validateEntriesFrom]
    by_cases h1 : d.instructions.length = 0
    · rw [if_pos h1]
      refine iff_of_true ⟨_, rfl⟩ ⟨0, by simp, Or.inl (List.length_eq_zero.mp h1)⟩
    · rw [if_neg h1]
      by_cases h2 : d.feePayer = none
      · rw [if_pos h2]
        refine iff_of_true ⟨_, rfl⟩ ⟨0, by simp, Or.inr h2⟩
      · rw [if_neg h2, validateEntriesFrom_error_iff rest (s + 1)]
        constructor
        · rintro ⟨i, h, hp⟩
          exact ⟨i + 1, by simpa using Nat.succ_lt_succ h, by simpa using hp⟩
        · rintro ⟨i, h, hp⟩
          cases i with
          | zero =>
              simp only [List.getElem_cons_zero] at hp
              rcases hp with hp | hp
              · exact absurd (by simp [hp]) h1
              · exact absurd hp h2
          | succ j =>
              refine ⟨j, Nat.lt_of_succ_lt_succ (by simpa using h), ?_⟩
              simpa using hp

/-- C9 counterexample: the single-transaction `TransactionPayload`
constructor accepts a request with an empty instruction list and a missing
fee payer without raising any configuration error, refuting the claim that
these invariants are checked at construction for every transaction
request. -/
theorem transactionPayload_constructor_skips_validation :
    mkTransactionPayload ⟨[], none⟩ = .ok ⟨[], none⟩ := rfl

/-- C9 (amended): the batch `MultiTransactionPayload` constructor (a pure
function making no network call) raises a configuration error precisely
when the batch is empty, or some request has an empty instruction list or
a missing fee payer; the single-transaction `TransactionPayload`
constructor performs no such validation. -/
theorem multiTransactionPayload_construction_validation
    (transactionsData : List TransactionData) :
    (∃ e, mkMultiTransactionPayload transactionsData = .error e)
      ↔ (transactionsData = []
          ∨ ∃ i, ∃ h : i < transactionsData.length,
              transactionsData[i].instructions = []
              ∨ transactionsData[i].feePayer = none) := by
  unfold mkMultiTransactionPayload validateTransactionData
  by_cases h0 : transactionsData.length = 0
  · rw [if_pos h0]
    exact iff_of_true ⟨.noTransactions, rfl⟩ (Or.inl (List.length_eq_zero.mp h0))
  · rw [if_neg h0]
    have hiff := validateEntriesFrom_error_iff transactionsData 0
    cases hv : validateEntriesFrom 0 transactionsData with
    | ok u =>
        refine iff_of_false (by simp) ?_
        rintro (hnil | hex)
        · exact h0 (by simp [hnil])
        · exact absurd (hiff.mpr hex) (by simp [hv])
    | error e =>
        exact iff_of_true ⟨e, rfl⟩ (Or.inr (hiff.mp ⟨e, hv⟩))

/-! ### Batch simulation -/

/-- Membership in the collected simulation-error list characterizes exactly
the failing indices. -/
lemma multiSimulate_error_mem {simOf : Nat → Except String SimulatedTransactionResponse}
    {n : Nat} {errs : List (Nat × String)}
    (h : multiSimulate simOf n = .error errs) :
    ∀ i e, (i, e) ∈ errs ↔ (i < n ∧ simOf i = .error e) := by
  have herrs : errs = (List.range n).filterMap fun i =>
      match simOf i with
      | .error e => some (i, e)
      | .ok _ => none := by
    unfold multiSimulate at h
    by_cases hemp : ((List.range n).filterMap fun i =>
        match simOf i with
        | .error e => some (i, e)
        | .ok _ => none).isEmpty
    · rw [if_pos hemp] at h
      exact absurd h (by simp)
    · rw [if_neg hemp] at h
      exact (Except.error.inj h).symm
  subst herrs
  intro i e
  rw [List.mem_filterMap]
  constructor
  · rintro ⟨a, ha, hfa⟩
    rw [List.mem_range] at ha
    cases hsa : simOf a with
    | ok r => rw [hsa] at hfa; exact absurd hfa (by simp)
    | error e2 =>
        rw [hsa] at hfa
        obtain ⟨rfl, rfl⟩ := Prod.mk.inj (Option.some.inj hfa)
        exact ⟨ha, hsa⟩
  · rintro ⟨hi, hsi⟩
    exact ⟨i, List.mem_range.mpr hi, by rw [hsi]⟩

/-- A failing index makes `multiSimulate` return the aggregate error. -/
lemma multiSimulate_error_of_exists
    {simOf : Nat → Except String SimulatedTransactionResponse} {n : Nat}
    (hex : ∃ i e, i < n ∧ simOf i = .error e) :
    ∃ errs, multiSimulate simOf n = .error errs := by
  obtain ⟨i, e, hi, hsi⟩ := hex
  have hmem : (i, e) ∈ (List.range n).filterMap fun j =>
      match simOf j with
      | .error e2 => some (j, e2)
      | .ok _ => none :=
    List.mem_filterMap.mpr ⟨i, List.mem_range.mpr hi, by rw [hsi]⟩
  have hne : ¬ ((List.range n).filterMap fun j =>
      match simOf j with
      | .error e2 => some (j, e2)
      | .ok _ => none).isEmpty = true := by
    intro hemp
    rw [List.isEmpty_iff] at hemp
    simp [hemp] at hmem
  exact ⟨_, by unfold multiSimulate; rw [if_neg hne]⟩

/-- C2: for every batch in which at least one per-request simulation fails
(priority fee enabled, so the simulation gate runs), `executeBatch` raises
the single aggregate `MultiTransactionSimulationError` whose entry list
carries exactly every failing index with its classified error, and the
list of transactions handed to the send stage is empty: nothing is
broadcast. -/
theorem executeBatch_aborts_on_simulation_failure
    (simOf : Nat → Except String SimulatedTransactionResponse)
    (fetchResult : Except Unit (List RecentPrioritizationFees))
    (options : TransactionExecutionOptions)
    (signAllTransactions : List VersionedTransaction → List VersionedTransaction)
    (settle : VersionedTransaction → SettledResult) (blockhash : Nat)
    (transactionsData : List TransactionData)
    (hfail : ∃ i e, i < transactionsData.length ∧ simOf i = .error e) :
    ∃ errs,
      executeBatch true simOf fetchResult options signAllTransactions settle blockhash
          transactionsData
        = (.error (.multiSimulation errs), [])
      ∧ ∀ i e, (i, e) ∈ errs ↔ (i < transactionsData.length ∧ simOf i = .error e) := by
  obtain ⟨errs, herrs⟩ := multiSimulate_error_of_exists hfail
  refine ⟨errs, ?_, multiSimulate_error_mem herrs⟩
  simp [executeBatch, herrs]

/-- Witness instantiating `executeBatch_aborts_on_simulation_failure` on a
concrete singleton batch whose only simulation fails. -/
theorem executeBatch_aborts_on_simulation_failure_witness :
    ∃ errs,
      executeBatch true (fun _ => .error "sim failed") (.error ()) ⟨none, none, none⟩
          id (fun _ => .fulfilled "sig") 7 [⟨[⟨0, [0]⟩], some 1⟩]
        = (.error (.multiSimulation errs), [])
      ∧ ∀ i e, (i, e) ∈ errs
          ↔ (i < ([(⟨[⟨0, [0]⟩], some 1⟩ : TransactionData)]).length
              ∧ (Except.error "sim failed"
                  : Except String SimulatedTransactionResponse) = .error e) := by
  have h := executeBatch_aborts_on_simulation_failure (fun _ => .error "sim failed")
    (.error ()) ⟨none, none, none⟩ id (fun _ => .fulfilled "sig") 7
    [⟨[⟨0, [0]⟩], some 1⟩] ⟨0, "sim failed", by norm_num, rfl⟩
  simpa using h

/-! ### Batch outcome alignment -/

lemma mapWithIndexFrom_length (f : Nat → α → β) :
    ∀ (s : Nat) (l : List α), (mapWithIndexFrom f s l).length = l.length
  | _, [] => rfl
  | s, a :: l => by
    simp only [mapWithIndexFrom, List.length_cons,
      mapWithIndexFrom_length f (s + 1) l]

lemma mapWithIndexFrom_getElem (f : Nat → α → β) :
    ∀ (s : Nat) (l : List α) (i : Nat) (hi : i < (mapWithIndexFrom f s l).length)
      (hl : i < l.length), (mapWithIndexFrom f s l)[i] = f (s + i) l[i]
  | s, a :: l, 0, _, _ => by simp [mapWithIndexFrom]
  | s, a :: l, i + 1, hi, hl => by
    simp only [mapWithIndexFrom]
    have hi2 : i < (mapWithIndexFrom f (s + 1) l).length := by
      rw [mapWithIndexFrom_length]
      exact Nat.lt_of_succ_lt_succ (by simpa using hl)
    have hl2 : i < l.length := Nat.lt_of_succ_lt_succ (by simpa using hl)
    rw [List.getElem_cons_succ, List.getElem_cons_succ,
      mapWithIndexFrom_getElem f (s + 1) l i hi2 hl2]
    ring_nf

lemma zipOutcomes_length :
    ∀ (rs : List SettledResult) (ds : List TransactionData)
      (ts : List VersionedTransaction),
      rs.length = ds.length → rs.length = ts.length →
      (zipOutcomes rs ds ts).length = rs.length
  | [], [], _, _, _ => rfl
  | [], d :: ds, _, h, _ => by simp at h
  | r :: rs, [], _, h, _ => by simp at h
  | r :: rs, d :: ds, [], _, h => by simp at h
  | r :: rs, d :: ds, t :: ts, h1, h2 => by
    simp only [zipOutcomes, List.length_cons,
      zipOutcomes_length rs ds ts (by simpa using h1) (by simpa using h2)]

lemma zipOutcomes_getElem :
    ∀ (rs : List SettledResult) (ds : List TransactionData)
      (ts : List VersionedTransaction) (i : Nat)
      (hi : i < (zipOutcomes rs ds ts).length) (hr : i < rs.length)
      (hd : i < ds.length) (ht : i < ts.length),
      (zipOutcomes rs ds ts)[i] = ⟨rs[i], ds[i], ts[i]⟩
  | r :: rs, d :: ds, t :: ts, 0, _, _, _, _ => by simp [zipOutcomes]
  | r :: rs, d :: ds, t :: ts, i + 1, hi, hr, hd, ht => by
    simp only [zipOutcomes]
    have hi2 : i < (zipOutcomes rs ds ts).length := by simpa [zipOutcomes] using hi
    rw [List.getElem_cons_succ, List.getElem_cons_succ, List.getElem_cons_succ,
      List.getElem_cons_succ,
      zipOutcomes_getElem rs ds ts i hi2 (by simpa using hr) (by simpa using hd)
        (by simpa using ht)]

/-- The injector only prepends, so the input instructions form a suffix of
the output. -/
lemma suffix_addPriorityFeeInstructions (fetchResult options computeUnit)
    (instructions : List TransactionInstruction) :
    instructions <:+ addPriorityFeeInstructions fetchResult options computeUnit
      instructions := by
  unfold addPriorityFeeInstructions
  by_cases hL : instructions.any isComputeUnitLimitIx
    <;> by_cases hP : instructions.any isComputeUnitPriceIx
    <;> simp only [hL, hP, if_true, if_false, Bool.false_eq_true, ite_true, ite_false]
  · exact List.suffix_refl _
  · exact List.suffix_cons _ _
  · exact List.suffix_cons _ _
  · exact (List.suffix_cons _ _).trans (List.suffix_cons _ _)

/-- What the build/sign/settle tail guarantees when it returns outcomes:
one outcome per request, index-aligned, each holding its own request and
the transaction compiled from that request. -/
lemma sendAndSettlePhase_ok
    {signAllTransactions : List VersionedTransaction → List VersionedTransaction}
    {settle : VersionedTransaction → SettledResult} {blockhash : Nat}
    {reqs : List TransactionData} {outcomes : List ExecutionOutcome}
    {sent : List VersionedTransaction}
    (hsign : ∀ ts : List VersionedTransaction,
      (signAllTransactions ts).length = ts.length)
    (h : sendAndSettlePhase signAllTransactions settle blockhash reqs
      = (.ok outcomes, sent)) :
    outcomes.length = reqs.length
    ∧ ∀ i (hi : i < outcomes.length) (hr : i < reqs.length),
        outcomes[i].transactionData = reqs[i]
        ∧ outcomes[i].transaction = buildVersionTransaction blockhash reqs[i] := by
  simp only [sendAndSettlePhase] at h
  have hlen1 : ((signAllTransactions
      (reqs.map (buildVersionTransaction blockhash))).map settle).length
      = reqs.length := by
    rw [List.length_map, hsign, List.length_map]
  have hlen2 : ((signAllTransactions
      (reqs.map (buildVersionTransaction blockhash))).map settle).length
      = (reqs.map (buildVersionTransaction blockhash)).length := by
    rw [hlen1, List.length_map]
  rw [if_pos ⟨hlen1, hlen2⟩, Prod.mk.injEq] at h
  obtain ⟨hok, hsent⟩ := h
  have houtcomes := Except.ok.inj hok
  subst houtcomes
  have hzlen : (zipOutcomes
      ((signAllTransactions (reqs.map (buildVersionTransaction blockhash))).map settle)
      reqs (reqs.map (buildVersionTransaction blockhash))).length = reqs.length := by
    rw [zipOutcomes_length _ _ _ hlen1 hlen2, hlen1]
  refine ⟨hzlen, ?_⟩
  intro i hi hr
  have hzi := zipOutcomes_getElem
    ((signAllTransactions (reqs.map (buildVersionTransaction blockhash))).map settle)
    reqs (reqs.map (buildVersionTransaction blockhash)) i hi
    (by rw [hlen1]; exact hr) hr (by rw [List.length_map]; exact hr)
  rw [hzi]
  exact ⟨rfl, by simp⟩

/-- C1: whenever batch execution returns an outcome sequence (with a signer
that preserves transaction count, as the Signer contract requires), the
sequence has exactly one element per input request, in input order: the
i-th outcome carries the i-th request (same fee payer; its original
instructions, possibly with budget instructions prepended) and the i-th
compiled transaction, which is compiled from exactly that request —
regardless of which transactions the `settle` stage fulfils or rejects. -/
theorem execute_batch_outcome_alignment
    (enablePriorityFee : Bool)
    (simOf : Nat → Except String SimulatedTransactionResponse)
    (fetchResult : Except Unit (List RecentPrioritizationFees))
    (options : TransactionExecutionOptions)
    (signAllTransactions : List VersionedTransaction → List VersionedTransaction)
    (settle : VersionedTransaction → SettledResult) (blockhash : Nat)
    (transactionsData : List TransactionData) (outcomes : List ExecutionOutcome)
    (sentTransactions : List VersionedTransaction)
    (hsign : ∀ ts : List VersionedTransaction,
      (signAllTransactions ts).length = ts.length)
    (hok : executeBatch enablePriorityFee simOf fetchResult options
        signAllTransactions settle blockhash transactionsData
      = (.ok outcomes, sentTransactions)) :
    outcomes.length = transactionsData.length
    ∧ ∀ i (hi : i < outcomes.length) (hr : i < transactionsData.length),
        outcomes[i].transactionData.feePayer = transactionsData[i].feePayer
        ∧ transactionsData[i].instructions <:+ outcomes[i].transactionData.instructions
        ∧ outcomes[i].transaction
            = buildVersionTransaction blockhash outcomes[i].transactionData := by
  cases enablePriorityFee with
  | false =>
      rw [executeBatch, if_neg (by simp)] at hok
      obtain ⟨hlen, hpt⟩ := sendAndSettlePhase_ok hsign hok
      refine ⟨hlen, ?_⟩
      intro i hi hr
      obtain ⟨hd, ht⟩ := hpt i hi hr
      exact ⟨by rw [hd], by rw [hd], by rw [ht, hd]⟩
  | true =>
      rw [executeBatch, if_pos rfl] at hok
      cases hm : multiSimulate simOf transactionsData.length with
      | error errs => rw [hm] at hok; exact absurd hok (by simp)
      | ok simMap =>
          rw [hm] at hok
          obtain ⟨hlen, hpt⟩ := sendAndSettlePhase_ok hsign hok
          have hilen : (injectAll fetchResult options simMap transactionsData).length
              = transactionsData.length := mapWithIndexFrom_length _ _ _
          refine ⟨by rw [hlen, hilen], ?_⟩
          intro i hi hr
          obtain ⟨hd, ht⟩ := hpt i hi (by rw [hilen]; exact hr)
          have hig : (injectAll fetchResult options simMap transactionsData)[i]
              = { transactionsData[i] with instructions :=
                  (addPriorityFeeInstructions fetchResult options
                    (computeUnitFor (simMap.lookup i))
                    transactionsData[i].instructions) } := by
            have := mapWithIndexFrom_getElem
              (fun j d => { d with instructions :=
                (addPriorityFeeInstructions fetchResult options
                  (computeUnitFor (simMap.lookup j)) d.instructions) })
              0 transactionsData i (by rw [mapWithIndexFrom_length]; exact hr) hr
            simpa [injectAll] using this
          rw [hd, hig]
          exact ⟨rfl, suffix_addPriorityFeeInstructions _ _ _ _,
            by rw [ht, hig]⟩

/-- Witness instantiating `execute_batch_outcome_alignment` on a concrete
singleton batch with the priority fee disabled. -/
theorem execute_batch_outcome_alignment_witness :
    ([(⟨.fulfilled "sig", ⟨[⟨0, [0]⟩], some 1⟩,
        ⟨[⟨0, [0]⟩], some 1, 7⟩⟩ : ExecutionOutcome)]).length
      = ([(⟨[⟨0, [0]⟩], some 1⟩ : TransactionData)]).length := by
  have h := execute_batch_outcome_alignment false (fun _ => .error "ignored")
    (.error ()) ⟨none, none, none⟩ id (fun _ => .fulfilled "sig") 7
    [⟨[⟨0, [0]⟩], some 1⟩]
    [⟨.fulfilled "sig", ⟨[⟨0, [0]⟩], some 1⟩, ⟨[⟨0, [0]⟩], some 1, 7⟩⟩]
    [⟨[⟨0, [0]⟩], some 1, 7⟩] (fun ts => rfl) rfl
  exact h.1

/-! ### The sending retry loop -/

/-- C8: the sending retry loop returns successfully (raising nothing) the
moment a send attempt responds "this transaction has already been
processed"; and whenever the loop terminates, it raises the terminal
block-height-exceeded error exactly when it exits with the observed block
height at or above the last valid block height, other than through the
already-processed return or the rethrow of a fatal send error. -/
theorem sendTransactionWithRetry_exit_classification :
    (∀ (lastValidBlockHeight maxRetries : Nat) (attempt : Nat → SendAttemptOutcome)
      (i retry blockHeight fuel : Nat),
      blockHeight < lastValidBlockHeight → retry < maxRetries →
      attempt i = .alreadyProcessed →
      sendTransactionWithRetryLoop lastValidBlockHeight maxRetries attempt i retry
          blockHeight (fuel + 1)
        = some (blockHeight, .returnedAlreadyProcessed)
      ∧ sendExitRaises .returnedAlreadyProcessed = none)
    ∧ (∀ (lastValidBlockHeight maxRetries : Nat) (attempt : Nat → SendAttemptOutcome)
      (fuel i retry blockHeight finalHeight : Nat) (exit : SendExitKind),
      sendTransactionWithRetryLoop lastValidBlockHeight maxRetries attempt i retry
          blockHeight fuel = some (finalHeight, exit) →
      ((exit = .blockHeightExceeded
          ↔ (lastValidBlockHeight ≤ finalHeight
              ∧ exit ≠ .returnedAlreadyProcessed
              ∧ ∀ m, exit ≠ .raisedFatal m))
        ∧ sendExitRaises .blockHeightExceeded
            = some "Block height exceeded before confirmation")) := by
  constructor
  · intro lastValidBlockHeight maxRetries attempt i retry blockHeight fuel hb hr hA
    rw [sendTransactionWithRetryLoop, if_pos ⟨hb, hr⟩, hA]
    exact ⟨rfl, rfl⟩
  · intro lastValidBlockHeight maxRetries attempt fuel
    induction fuel with
    | zero =>
        intro i retry blockHeight finalHeight exit h
        exact absurd h (by rw [sendTransactionWithRetryLoop]; simp)
    | succ n ih =>
        intro i retry blockHeight finalHeight exit h
        rw [sendTransactionWithRetryLoop] at h
        by_cases hc : blockHeight < lastValidBlockHeight ∧ retry < maxRetries
        · rw [if_pos hc] at h
          cases hA : attempt i <;> rw [hA] at h
          · exact ih _ _ _ _ _ h
          · obtain ⟨rfl, rfl⟩ := Prod.mk.inj (Option.some.inj h)
            refine ⟨iff_of_false (by simp) ?_, rfl⟩
            rintro ⟨-, hne, -⟩
            exact hne rfl
          · exact ih _ _ _ _ _ h
          · obtain ⟨rfl, rfl⟩ := Prod.mk.inj (Option.some.inj h)
            refine ⟨iff_of_false (by simp) ?_, rfl⟩
            rintro ⟨-, -, hfm⟩
            exact hfm _ rfl
        · rw [if_neg hc] at h
          by_cases hge : lastValidBlockHeight ≤ blockHeight
          · rw [if_pos hge] at h
            obtain ⟨rfl, rfl⟩ := Prod.mk.inj (Option.some.inj h)
            exact ⟨iff_of_true rfl ⟨hge, by simp, fun m => by simp⟩, rfl⟩
          · rw [if_neg hge] at h
            obtain ⟨rfl, rfl⟩ := Prod.mk.inj (Option.some.inj h)
            refine ⟨iff_of_false (by simp) ?_, rfl⟩
            rintro ⟨hle, -, -⟩
            exact hge hle

/-- Witness instantiating `sendTransactionWithRetry_exit_classification`:
a first-iteration already-processed response returns successfully, and a
run that starts at or beyond the last valid height exits with the
block-height-exceeded error, whose final height is at the bound. -/
theorem sendTransactionWithRetry_exit_classification_witness :
    (sendTransactionWithRetryLoop 10 5 (fun _ => .alreadyProcessed) 0 0 0 1
        = some (0, .returnedAlreadyProcessed))
    ∧ (10 : Nat) ≤ 12 := by
  have h1 := sendTransactionWithRetry_exit_classification.1 10 5
    (fun _ => .alreadyProcessed) 0 0 0 0 (by norm_num) (by norm_num) rfl
  have h2 := (sendTransactionWithRetry_exit_classification.2 10 5
    (fun _ => .alreadyProcessed) 1 0 0 12 12 .blockHeightExceeded rfl).1
  exact ⟨h1.1, ((h2.mp rfl).1)⟩

/-- Witness instantiating `medianFee_policy` at concrete inputs. -/
theorem medianFee_policy_witness :
    medianFee [⟨0, some 3⟩] = (3 : ℚ) ∧ medianFee [] = 0 := by
  constructor
  · have h := medianFee_policy.1 [⟨0, some 3⟩] 3 (by decide) rfl (by norm_num)
    simpa using h
  · exact medianFee_policy.2.2.2

/-- Witness instantiating `replaceNonZeroAndSort_filter_sorted_idempotent`
at a concrete sample list. -/
theorem replaceNonZeroAndSort_filter_sorted_idempotent_witness :
    replaceNonZeroAndSortPrioritizationFeesAsc
        (replaceNonZeroAndSortPrioritizationFeesAsc [⟨1, some 5⟩, ⟨2, none⟩, ⟨3, some 2⟩])
      = replaceNonZeroAndSortPrioritizationFeesAsc [⟨1, some 5⟩, ⟨2, none⟩, ⟨3, some 2⟩] :=
  (replaceNonZeroAndSort_filter_sorted_idempotent
    [⟨1, some 5⟩, ⟨2, none⟩, ⟨3, some 2⟩]).2.2

/-- Witness instantiating `getRecentPriorityFee_le_cap` on the fallback
path with a small cap. -/
theorem getRecentPriorityFee_le_cap_witness :
    getRecentPriorityFee (.error ()) .high 7 ≤ 7 :=
  getRecentPriorityFee_le_cap (.error ()) .high 7

/-- Witness instantiating `priority_multipliers_and_ceil_rounding`. -/
theorem priority_multipliers_and_ceil_rounding_witness :
    multipliers .low < 1 :=
  priority_multipliers_and_ceil_rounding.1.1

/-- Witness instantiating `addPriorityFeeInstructions_idempotent` at a
concrete instruction list. -/
theorem addPriorityFeeInstructions_idempotent_witness :
    addPriorityFeeInstructions (.error ()) ⟨none, none, none⟩ 200
        (addPriorityFeeInstructions (.error ()) ⟨none, none, none⟩ 100 [⟨0, [0]⟩])
      = addPriorityFeeInstructions (.error ()) ⟨none, none, none⟩ 100 [⟨0, [0]⟩] :=
  (addPriorityFeeInstructions_idempotent (.error ()) ⟨none, none, none⟩ 100
    (.error ()) ⟨none, none, none⟩ 200 [⟨0, [0]⟩]).1

/-- Witness instantiating `exact_zero_priority_fee_uses_estimation` at a
concrete compute budget. -/
theorem exact_zero_priority_fee_uses_estimation_witness :
    calculatePriorityFee (.error ()) 200000 ⟨none, none, some 0⟩
      = calculatePriorityFee (.error ()) 200000 ⟨none, none, none⟩ :=
  exact_zero_priority_fee_uses_estimation.1 (.error ()) 200000 none none

/-- Witness instantiating `multiTransactionPayload_construction_validation`
on the empty batch. -/
theorem multiTransactionPayload_construction_validation_witness :
    ∃ e, mkMultiTransactionPayload [] = .error e :=
  (multiTransactionPayload_construction_validation []).mpr (Or.inl rfl)

end SolanaCommon
